import Mathlib

/-!
Shallow embedding of `code/eval_pruned_discriminative_models.py` (StereoSet-style
bias evaluation with attention-head pruning), together with theorems settling the
frozen claims about its specification.

Modelling conventions:
* machine floats become exact rationals `ℚ`;
* the transcendental exponential inside softmax is an explicit function
  parameter `expf : ℚ → ℚ` (theorems that need it assume positivity, the one
  property of `exp` the code relies on);
* torch tensors become lists (`List ℚ`, `List (List ℚ)`); a weight matrix is a
  list of rows, row index = output feature, column index = input feature,
  exactly like `torch.nn.Linear.weight` of shape `(out_features, in_features)`;
* Python list indexing (negative wrap-around, `IndexError`) and slice
  assignment (silent clamping) are modelled explicitly;
* fallible operations return `Option`.
-/

namespace StereoSetEval

set_option maxRecDepth 100000

/-- Python list indexing `l[i]`: negative indices wrap around once, an index that
is still out of range raises `IndexError`, modelled by `none`. -/
def pyIndex {α : Type} (l : List α) (i : Int) : Option α :=
  if i < 0 then
    if i + l.length < 0 then none else l[(i + l.length).toNat]?
  else l[i.toNat]?

/-- The normalized (non-negative) position that a successful `l[i]` refers to. -/
def pyIndexPos (n : Nat) (i : Int) : Nat :=
  (if i < 0 then i + n else i).toNat

/-- Python/torch slice-bound clamping: the effective start or stop of `x[s:e]`
on a sequence of length `n`. Out-of-range bounds are clamped, never an error. -/
def pyClamp (i : Int) (n : Nat) : Nat :=
  if i < 0 then (max (i + n) 0).toNat else min i.toNat n

/-- Whether position `j` lies inside python slice `[s:e]` of a length-`n`
sequence (after clamping). -/
def inPySlice (s e : Int) (n : Nat) (j : Nat) : Bool :=
  decide (pyClamp s n ≤ j) && decide (j < pyClamp e n)

/-- Slice assignment `v[s:e] = 0` on a rational vector (one torch tensor row, or
a bias vector): entries inside the clamped slice become `0`, others are kept. -/
def zeroSlice (s e : Int) (v : List ℚ) : List ℚ :=
  v.mapIdx (fun j x => if inPySlice s e v.length j then 0 else x)

/-- The query/key/value parameters of `layer.attention.self` in one encoder
layer, as read by `zero_out_attention_weights`. Weight matrices are lists of
rows: row = output feature, column = input feature (torch `Linear.weight` is
`(out_features, in_features)`). -/
structure AttnLayer where
  num_attention_heads : Nat
  attention_head_size : Nat
  query_weight : List (List ℚ)
  key_weight : List (List ℚ)
  value_weight : List (List ℚ)
  query_bias : List ℚ
  key_bias : List ℚ
  value_bias : List ℚ
deriving DecidableEq

/-- The part of the model that the ablator touches: `model.bert.encoder.layer`. -/
structure BertEncoder where
  layers : List AttnLayer
deriving DecidableEq

/-- Body of `zero_out_attention_weights` once the layer has been fetched:
`start_index = head_num * head_dim`, `end_index = start_index + head_dim`, then
`*_weight[:, start_index:end_index] = 0` (a column slice, i.e. along dimension 1,
the input-feature axis) and `*_bias[start_index:end_index] = 0`. -/
def ablateLayer (attention : AttnLayer) (head_num : Int) : AttnLayer :=
  let head_dim : Int := attention.attention_head_size
  let start_index := head_num * head_dim
  let end_index := start_index + head_dim
  { attention with
    query_weight := attention.query_weight.map (zeroSlice start_index end_index)
    key_weight := attention.key_weight.map (zeroSlice start_index end_index)
    value_weight := attention.value_weight.map (zeroSlice start_index end_index)
    query_bias := zeroSlice start_index end_index attention.query_bias
    key_bias := zeroSlice start_index end_index attention.key_bias
    value_bias := zeroSlice start_index end_index attention.value_bias }

/-- `BiasEvaluator.zero_out_attention_weights(layer_num, head_num)`: fetch
`model.bert.encoder.layer[layer_num]` (python indexing, may raise) and zero the
column slice of the query/key/value weights and the slice of the biases in
place. `head_num` is never validated by the code: its slice silently clamps. -/
def zero_out_attention_weights (model : BertEncoder) (layer_num head_num : Int) :
    Option BertEncoder :=
  match pyIndex model.layers layer_num with
  | none => none
  | some layer =>
      some ⟨model.layers.set (pyIndexPos model.layers.length layer_num)
              (ablateLayer layer head_num)⟩

/-- Reading back the head slice of a weight matrix along the output-feature axis
(rows `[h*d, (h+1)*d)`), the slice the spec designates for head `h`. -/
def headWeightRows (w : List (List ℚ)) (head_num head_dim : Nat) : List (List ℚ) :=
  (w.drop (head_num * head_dim)).take head_dim

/-- Reading back the head slice of a bias vector: entries `[h*d, (h+1)*d)`. -/
def headBiasSlice (b : List ℚ) (head_num head_dim : Nat) : List ℚ :=
  (b.drop (head_num * head_dim)).take head_dim

/-- A tiny concrete encoder layer: 2 heads of dimension 1, hidden size 2, every
weight and bias entry equal to 1. -/
def tinyLayer : AttnLayer where
  num_attention_heads := 2
  attention_head_size := 1
  query_weight := [[1, 1], [1, 1]]
  key_weight := [[1, 1], [1, 1]]
  value_weight := [[1, 1], [1, 1]]
  query_bias := [1, 1]
  key_bias := [1, 1]
  value_bias := [1, 1]

/-- A concrete one-layer model built from `tinyLayer`. -/
def tinyModel : BertEncoder := ⟨[tinyLayer]⟩

/-- The model-preparation phase of `evaluate_intrasentence`, in the order the
code performs it: construct the pretrained model (line 173), ablate if pruning
is on (lines 189-190), and only afterwards load a checkpoint via
`load_state_dict` when a load path is configured (lines 196-198), which replaces
every parameter with the checkpoint values. The result is the model state that
intrasentence scoring reads. -/
def intrasentence_model_setup (pretrained : BertEncoder) (do_pruning : Bool)
    (layer_num head_num : Int) (checkpoint : Option BertEncoder) :
    Option BertEncoder :=
  let model := pretrained
  let pruned := if do_pruning then zero_out_attention_weights model layer_num head_num
                else some model
  pruned.map (fun cur => match checkpoint with
    | some state_dict => state_dict
    | none => cur)

/-- `softmax` along the last axis of one logit vector: entry `i` becomes
`expf lᵢ / Σⱼ expf lⱼ`, with the exponential kept abstract as `expf`. -/
def softmax (expf : ℚ → ℚ) (l : List ℚ) : List ℚ :=
  l.map (fun x => expf x / (l.map expf).sum)

/-- The sequential-path class-0 test of `evaluate_intersentence` (line 296):
`"bert" == self.PRETRAINED_CLASS[:4] or "roberta-base" == self.PRETRAINED_CLASS`. -/
def sequential_class_zero (pretrained_class : String) : Bool :=
  (pretrained_class.data.take 4 == "bert".data) || (pretrained_class == "roberta-base")

/-- The worker-path class-0 test of `process_job` (line 325):
`"bert" in pretrained_class`, python substring containment. -/
def worker_class_zero (pretrained_class : String) : Bool :=
  decide ("bert".data <:+: pretrained_class.data)

/-- One `{id, score}` prediction record. -/
structure ScoreRecord where
  id : String
  score : ℚ
deriving DecidableEq

/-- Score computed by the sequential intersentence loop (lines 291-299) for one
example, given the two-class logits the model produced for it: softmax over the
class axis, then class 0 for bert-prefixed or exactly-roberta-base families,
class 1 otherwise. -/
def sequential_intersentence_score (expf : ℚ → ℚ) (pretrained_class : String)
    (logits : List ℚ) : ℚ :=
  let outputs := softmax expf logits
  if sequential_class_zero pretrained_class then outputs.getD 0 0 else outputs.getD 1 0

/-- The full `{id, score}` record appended by the sequential loop (lines 293-300)
for one example `ex = (sentence_id, logits)`. -/
def sequential_intersentence_record (expf : ℚ → ℚ) (pretrained_class : String)
    (ex : String × List ℚ) : ScoreRecord :=
  ⟨ex.1, sequential_intersentence_score expf pretrained_class ex.2⟩

/-- Python tuple unpacking `a, b, c = t`: succeeds exactly when the iterable
has three items, otherwise raises `ValueError`, modelled by `none`. -/
def pyUnpack3 {Field : Type} : List Field → Option (Field × Field × Field)
  | [a, b, c] => some (a, b, c)
  | _ => none

/-- `process_job(batch, model, pretrained_class)` (lines 316-329), the worker
dispatched per batch under `--no-cuda` fan-out. Line 317 first unpacks the
batch into the three targets `input_ids, token_type_ids, sentence_id`, which
raises `ValueError` unless the batch carries exactly three fields (the
intersentence loader's batches carry four — line 284 unpacks
`input_ids, token_type_ids, attention_mask, sentence_id` from the same
loader). On a successful unpack: softmax over the two-class output of
`model(input_ids, token_type_ids=token_type_ids)`, then `outputs[0, 0]` when
`"bert" in pretrained_class` else `outputs[0, 1]`, returned as
`(pid, pscore)` with `pid = sentence_id[0]`. Batch fields are opaque; the
model call and the `sentence_id[0]` read are the interpretation parameters
`modelOut` and `firstId`. -/
def process_job {Field : Type} (expf : ℚ → ℚ)
    (modelOut : Field → Field → List ℚ) (firstId : Field → String)
    (pretrained_class : String) (batch : List Field) : Option (String × ℚ) :=
  match pyUnpack3 batch with
  | none => none
  | some (input_ids, token_type_ids, sentence_id) =>
      let outputs := softmax expf (modelOut input_ids token_type_ids)
      let pid := firstId sentence_id
      let pscore := if worker_class_zero pretrained_class then outputs.getD 0 0
                    else outputs.getD 1 0
      some (pid, pscore)

/-- One row yielded by the intrasentence loader: `(sentence_id, next_token,
input_ids)` (attention mask and token type ids do not influence the embedded
score computation and are omitted). -/
structure IntraRow where
  sentence_id : String
  next_token : Nat
  input_ids : List Nat
deriving DecidableEq

/-- Placeholder row used as a `getD` default (never selected at in-range
indices). -/
def defaultRow : IntraRow := ⟨"", 0, []⟩

/-- The positions of `input_ids` holding the mask token, in increasing order:
`mask_idxs = (input_ids == self.MASK_TOKEN_IDX)` restricted to one row. -/
def maskPositions (mask_token_idx : Nat) (input_ids : List Nat) : List Nat :=
  (List.range input_ids.length).filter
    (fun p => input_ids.getD p 0 == mask_token_idx)

/-- The row-major flattening `output[mask_idxs]` of a batch: one `(row, position)`
pair per mask occurrence, rows in batch order, positions in increasing order. -/
def maskedPairs (mask_token_idx : Nat) (batch : List IntraRow) :
    List (IntraRow × Nat) :=
  batch.flatMap (fun r =>
    (maskPositions mask_token_idx r.input_ids).map (fun p => (r, p)))

/-- The probability the softmaxed model output assigns to token `target` at
position `p` of row `r`; the model maps a row input and a position to the logit
vector over the vocabulary. -/
def probAt (expf : ℚ → ℚ) (model : List Nat → Nat → List ℚ) (r : IntraRow)
    (p : Nat) (target : Nat) : ℚ :=
  (softmax expf (model r.input_ids p)).getD target 0

/-- The `(sentence_id, probability)` stream one batch appends to
`word_probabilities` (lines 227-236): after
`output.index_select(1, next_token).diag()`, entry `i` of the diagonal pairs the
`i`-th mask occurrence (row-major) with the `i`-th batch row's `next_token`, and
is recorded under the `i`-th batch row's `sentence_id`; the diagonal length is
`min(#mask occurrences, batch size)`. -/
def batchContribs (expf : ℚ → ℚ) (model : List Nat → Nat → List ℚ)
    (mask_token_idx : Nat) (batch : List IntraRow) : List (String × ℚ) :=
  (List.range (min (maskedPairs mask_token_idx batch).length batch.length)).map
    (fun i =>
      ((batch.getD i defaultRow).sentence_id,
       probAt expf model ((maskedPairs mask_token_idx batch).getD i (defaultRow, 0)).1
         ((maskedPairs mask_token_idx batch).getD i (defaultRow, 0)).2
         (batch.getD i defaultRow).next_token))

/-- `word_probabilities[sentence_id].append(item)` on an insertion-ordered
association list, the embedding of the `defaultdict(list)`. -/
def addProb : List (String × List ℚ) → String × ℚ → List (String × List ℚ)
  | [], kv => [(kv.1, [kv.2])]
  | (k, vs) :: rest, kv =>
      if k = kv.1 then (k, vs ++ [kv.2]) :: rest
      else (k, vs) :: addProb rest kv

/-- The fully accumulated `word_probabilities` mapping after the batch loop
(lines 218-236). -/
def word_probabilities (expf : ℚ → ℚ) (model : List Nat → Nat → List ℚ)
    (mask_token_idx : Nat) (batches : List (List IntraRow)) :
    List (String × List ℚ) :=
  batches.foldl
    (fun acc batch => (batchContribs expf model mask_token_idx batch).foldl addProb acc)
    []

/-- The score list `evaluate_intrasentence` returns (lines 238-248): one record
per accumulated id, with `score = np.mean(v)` = sum of the collected
probabilities divided by their count. -/
def evaluate_intrasentence (expf : ℚ → ℚ) (model : List Nat → Nat → List ℚ)
    (mask_token_idx : Nat) (batches : List (List IntraRow)) : List ScoreRecord :=
  (word_probabilities expf model mask_token_idx batches).map
    (fun kv => ⟨kv.1, kv.2.sum / (kv.2.length : ℚ)⟩)

/-- The probability reading the spec prescribes for one loader row: the softmax
probability of the row's target token at the row's designated mask position
(the data model gives each row exactly one designated mask position). -/
def specRowProb (expf : ℚ → ℚ) (model : List Nat → Nat → List ℚ)
    (mask_token_idx : Nat) (r : IntraRow) : ℚ :=
  probAt expf model r ((maskPositions mask_token_idx r.input_ids).getD 0 0)
    r.next_token

/-- The intrasentence score policy as the spec states it: collect one
probability per (example, masked-position) occurrence, group by example id, and
take the arithmetic mean per id. -/
def specIntrasentenceScores (expf : ℚ → ℚ) (model : List Nat → Nat → List ℚ)
    (mask_token_idx : Nat) (rows : List IntraRow) : List ScoreRecord :=
  ((rows.map (fun r =>
      (r.sentence_id, specRowProb expf model mask_token_idx r))).foldl addProb []).map
    (fun kv => ⟨kv.1, kv.2.sum / (kv.2.length : ℚ)⟩)

/-- `os.path.join(dir, file)` for the relative filenames the script builds. -/
def pyJoin (dir file : String) : String :=
  if dir.data.getLast? = some '/' then dir ++ file else dir ++ "/" ++ file

/-- The output path one sweep cell writes (lines 355-360): the explicit
`--output-file` name when given, otherwise
`predictions_{pretrained_class}_{intersentence_model}_{intrasentence_model}_{layer_num}_{head_num}.json`,
joined onto the output directory. -/
def cell_output_file (output_file : Option String)
    (output_dir pretrained_class inter_model intra_model : String)
    (layer_num head_num : Nat) : String :=
  pyJoin output_dir (match output_file with
    | some f => f
    | none =>
        "predictions_" ++ pretrained_class ++ "_" ++ inter_model ++ "_" ++
          intra_model ++ "_" ++ toString layer_num ++ "_" ++ toString head_num ++
          ".json")

/-- The `(layer_num, head_num)` grid the pruning sweep iterates:
`for layer_num in range(12): for head_num in range(12)` (lines 351-352). -/
def gridPairs : List (Nat × Nat) :=
  (List.range 12).flatMap (fun layer_num =>
    (List.range 12).map (fun head_num => (layer_num, head_num)))

/-- The sequence of output paths the pruning sweep writes, one per grid cell in
loop order (lines 351-362). -/
def pruning_sweep_files (output_file : Option String)
    (output_dir pretrained_class inter_model intra_model : String) : List String :=
  (List.range 12).flatMap (fun layer_num =>
    (List.range 12).map (fun head_num =>
      cell_output_file output_file output_dir pretrained_class inter_model
        intra_model layer_num head_num))

/-- The per-run constant part of the default sweep filename, up to and
including the underscore before `layer_num`. -/
def sweepStem (pretrained_class inter_model intra_model : String) : String :=
  "predictions_" ++ pretrained_class ++ "_" ++ inter_model ++ "_" ++
    intra_model ++ "_"

/-- The cell-dependent tail of the default sweep filename. -/
def cellSuffix (layer_num head_num : Nat) : String :=
  toString layer_num ++ "_" ++ toString head_num ++ ".json"

/-- A concrete positive stand-in for the exponential, used by witnesses. -/
def myExp : ℚ → ℚ := fun q => max q 0 + 1

/-- A concrete synthetic intrasentence model: logits `[2, -1]` at position 0 and
`[-1, 2]` elsewhere, over a two-token vocabulary. -/
def cModel : List Nat → Nat → List ℚ := fun _ p => if p = 0 then [2, -1] else [-1, 2]

/-- Concrete loader row: id `ex1`, mask (token 9) at position 0, target token 0. -/
def cRow1 : IntraRow := ⟨"ex1", 0, [9, 5]⟩

/-- Concrete loader row: id `ex1`, mask (token 9) at position 1, target token 0. -/
def cRow2 : IntraRow := ⟨"ex1", 0, [5, 9]⟩

/-- Two singleton batches (batch size 1) carrying the two rows of example
`ex1`. -/
def cBatches : List (List IntraRow) := [[cRow1], [cRow2]]

/-! ## Helper lemmas -/

/-- The witness exponential is positive everywhere. -/
theorem myExp_pos (q : ℚ) : 0 < myExp q := by
  unfold myExp
  have h : (0 : ℚ) ≤ max q 0 := le_max_right q 0
  linarith

/-- With a positive exponential, every entry of a softmax vector is in [0,1]. -/
theorem softmax_mem_unit (expf : ℚ → ℚ) (hpos : ∀ q, 0 < expf q) (l : List ℚ) :
    ∀ y ∈ softmax expf l, 0 ≤ y ∧ y ≤ 1 := by
  intro y hy
  unfold softmax at hy
  rcases List.mem_map.mp hy with ⟨x, hx, rfl⟩
  have hsum : 0 < (l.map expf).sum := by
    apply List.sum_pos
    · intro z hz
      rcases List.mem_map.mp hz with ⟨w, _, rfl⟩
      exact hpos w
    · exact List.ne_nil_of_mem (List.mem_map_of_mem expf hx)
  refine ⟨div_nonneg (le_of_lt (hpos x)) (le_of_lt hsum), ?_⟩
  rw [div_le_one hsum]
  apply List.single_le_sum
  · intro z hz
    rcases List.mem_map.mp hz with ⟨w, _, rfl⟩
    exact le_of_lt (hpos w)
  · exact List.mem_map_of_mem expf hx

/-- With a positive exponential, a `getD` read of a softmax vector (default 0)
is in [0,1]. -/
theorem softmax_getD_unit (expf : ℚ → ℚ) (hpos : ∀ q, 0 < expf q) (l : List ℚ)
    (i : Nat) :
    0 ≤ (softmax expf l).getD i 0 ∧ (softmax expf l).getD i 0 ≤ 1 := by
  rw [List.getD_eq_getElem?_getD]
  rcases h : (softmax expf l)[i]? with _ | y
  · simp
  · simp only [Option.getD_some]
    exact softmax_mem_unit expf hpos l y (List.getElem?_mem h)

/-- The arithmetic mean of a nonempty list of values in [0,1] is in [0,1]. -/
theorem mean_mem_unit (v : List ℚ) (hne : v ≠ [])
    (hb : ∀ x ∈ v, 0 ≤ x ∧ x ≤ 1) :
    0 ≤ v.sum / (v.length : ℚ) ∧ v.sum / (v.length : ℚ) ≤ 1 := by
  have hlen : 0 < (v.length : ℚ) := by
    exact_mod_cast List.length_pos.mpr hne
  refine ⟨div_nonneg (List.sum_nonneg fun x hx => (hb x hx).1) (le_of_lt hlen), ?_⟩
  rw [div_le_one hlen]
  calc v.sum ≤ v.length • (1 : ℚ) :=
        List.sum_le_card_nsmul v 1 (fun x hx => (hb x hx).2)
    _ = (v.length : ℚ) := by simp

/-- Keys after one `addProb`: unchanged if the key is present, appended once
otherwise. -/
theorem addProb_keys (acc : List (String × List ℚ)) (kv : String × ℚ) :
    (addProb acc kv).map Prod.fst =
      if kv.1 ∈ acc.map Prod.fst then acc.map Prod.fst
      else acc.map Prod.fst ++ [kv.1] := by
  induction acc with
  | nil => simp [addProb]
  | cons head rest ih =>
      obtain ⟨k, vs⟩ := head
      by_cases hk : k = kv.1
      · subst hk
        simp [addProb]
      · simp only [addProb, if_neg hk, List.map_cons, ih]
        by_cases hmem : kv.1 ∈ rest.map Prod.fst
        · simp [hmem, Ne.symm hk]
        · simp [hmem, Ne.symm hk]

/-- `addProb` preserves distinctness of the stored keys. -/
theorem addProb_keys_nodup (acc : List (String × List ℚ)) (kv : String × ℚ)
    (h : (acc.map Prod.fst).Nodup) : ((addProb acc kv).map Prod.fst).Nodup := by
  rw [addProb_keys]
  by_cases hmem : kv.1 ∈ acc.map Prod.fst
  · simpa [hmem] using h
  · simp [hmem, List.nodup_append, h]

/-- Folding any contribution stream through `addProb` preserves key
distinctness. -/
theorem foldl_addProb_keys_nodup (contribs : List (String × ℚ)) :
    ∀ (acc : List (String × List ℚ)), (acc.map Prod.fst).Nodup →
      ((contribs.foldl addProb acc).map Prod.fst).Nodup := by
  induction contribs with
  | nil => intro acc h; simpa using h
  | cons c rest ih =>
      intro acc h
      exact ih (addProb acc c) (addProb_keys_nodup acc c h)

/-- A nested per-batch fold is the flat fold of the concatenated streams. -/
theorem foldl_inner_flatten {α β γ : Type} (g : β → γ → β) (f : α → List γ)
    (bs : List α) (acc : β) :
    bs.foldl (fun a b => (f b).foldl g a) acc = ((bs.map f).flatten).foldl g acc := by
  induction bs generalizing acc with
  | nil => rfl
  | cons b rest ih =>
      simp only [List.foldl_cons, List.map_cons, List.flatten_cons,
        List.foldl_append]
      exact ih _

/-- `addProb` keeps every stored value list nonempty with all members
satisfying a predicate preserved by the incoming value. -/
theorem addProb_values (P : ℚ → Prop) :
    ∀ (acc : List (String × List ℚ)) (kv : String × ℚ),
      (∀ e ∈ acc, e.2 ≠ [] ∧ ∀ x ∈ e.2, P x) → P kv.2 →
      ∀ e ∈ addProb acc kv, e.2 ≠ [] ∧ ∀ x ∈ e.2, P x := by
  intro acc
  induction acc with
  | nil =>
      intro kv _ hkv e he
      simp only [addProb, List.mem_singleton] at he
      subst he
      refine ⟨by simp, ?_⟩
      intro x hx
      simp only [List.mem_singleton] at hx
      subst hx
      exact hkv
  | cons head rest ih =>
      intro kv hacc hkv e he
      obtain ⟨k, vs⟩ := head
      simp only [addProb] at he
      by_cases hk : k = kv.1
      · rw [if_pos hk] at he
        rcases List.mem_cons.mp he with rfl | hrest
        · have hh := hacc (k, vs) (List.mem_cons_self _ _)
          refine ⟨by simp, ?_⟩
          intro x hx
          rcases List.mem_append.mp hx with hx | hx
          · exact hh.2 x hx
          · simp only [List.mem_singleton] at hx
            subst hx
            exact hkv
        · exact hacc e (List.mem_cons_of_mem _ hrest)
      · rw [if_neg hk] at he
        rcases List.mem_cons.mp he with rfl | hrest
        · exact hacc (k, vs) (List.mem_cons_self _ _)
        · exact ih kv (fun d hd => hacc d (List.mem_cons_of_mem _ hd)) hkv e hrest

/-- Fold version of `addProb_values`. -/
theorem foldl_addProb_values (P : ℚ → Prop) :
    ∀ (contribs : List (String × ℚ)) (acc : List (String × List ℚ)),
      (∀ e ∈ acc, e.2 ≠ [] ∧ ∀ x ∈ e.2, P x) → (∀ c ∈ contribs, P c.2) →
      ∀ e ∈ contribs.foldl addProb acc, e.2 ≠ [] ∧ ∀ x ∈ e.2, P x := by
  intro contribs
  induction contribs with
  | nil => intro acc hacc _ e he; exact hacc e he
  | cons c rest ih =>
      intro acc hacc hc e he
      exact ih (addProb acc c)
        (addProb_values P acc c hacc (hc c (List.mem_cons_self _ _)))
        (fun d hd => hc d (List.mem_cons_of_mem _ hd)) e he

/-- Every probability a batch contributes is a softmax reading, hence in [0,1]
for a positive exponential. -/
theorem batchContribs_values (expf : ℚ → ℚ) (hpos : ∀ q, 0 < expf q)
    (model : List Nat → Nat → List ℚ) (mask_token_idx : Nat)
    (batch : List IntraRow) :
    ∀ c ∈ batchContribs expf model mask_token_idx batch, 0 ≤ c.2 ∧ c.2 ≤ 1 := by
  intro c hc
  unfold batchContribs at hc
  rcases List.mem_map.mp hc with ⟨i, _, rfl⟩
  exact softmax_getD_unit expf hpos _ _

/-- Mapping a two-`getD` body over `range l.length` is a plain map when the
second list is the `mf`-image of the first. -/
theorem map_range_two_getD {α β γ : Type} (d : α) (d2 : γ) (mf : α → γ)
    (F : α → γ → β) :
    ∀ l : List α,
      (List.range l.length).map
          (fun i => F (l.getD i d) ((l.map mf).getD i d2)) =
        l.map (fun a => F a (mf a)) := by
  intro l
  induction l with
  | nil => rfl
  | cons a t ih =>
      simp only [List.length_cons, List.range_succ_eq_map, List.map_cons,
        List.map_map, Function.comp_def, List.getD_cons_zero,
        List.getD_cons_succ]
      rw [ih]

/-- When every row has exactly one mask occurrence, the row-major mask
flattening pairs each row with its unique mask position, in row order. -/
theorem maskedPairs_of_single (mask_token_idx : Nat) :
    ∀ batch : List IntraRow,
      (∀ r ∈ batch, (maskPositions mask_token_idx r.input_ids).length = 1) →
      maskedPairs mask_token_idx batch =
        batch.map
          (fun r => (r, (maskPositions mask_token_idx r.input_ids).getD 0 0)) := by
  intro batch
  induction batch with
  | nil => intro _; rfl
  | cons r t ih =>
      intro h
      have hr := h r (List.mem_cons_self _ _)
      rcases List.length_eq_one.mp hr with ⟨p, hp⟩
      simp only [maskedPairs, List.flatMap_cons, List.map_cons] at *
      rw [hp]
      simp only [List.map_cons, List.map_nil, List.getD_cons_zero,
        List.singleton_append]
      rw [ih (fun x hx => h x (List.mem_cons_of_mem _ hx))]

/-- Under one mask occurrence per row, a batch's contribution stream is exactly
one spec-prescribed probability per row. -/
theorem batchContribs_of_single (expf : ℚ → ℚ) (model : List Nat → Nat → List ℚ)
    (mask_token_idx : Nat) (batch : List IntraRow)
    (h : ∀ r ∈ batch, (maskPositions mask_token_idx r.input_ids).length = 1) :
    batchContribs expf model mask_token_idx batch =
      batch.map
        (fun r => (r.sentence_id, specRowProb expf model mask_token_idx r)) := by
  unfold batchContribs
  rw [maskedPairs_of_single mask_token_idx batch h, List.length_map,
    Nat.min_self]
  exact map_range_two_getD defaultRow (defaultRow, 0)
    (fun r => (r, (maskPositions mask_token_idx r.input_ids).getD 0 0))
    (fun a c => (a.sentence_id, probAt expf model c.1 c.2 a.next_token)) batch

/-- Left cancellation for string concatenation. -/
theorem string_append_cancel {a b c : String} (h : a ++ b = a ++ c) : b = c := by
  apply String.ext
  have hd := congrArg String.data h
  rw [String.data_append, String.data_append] at hd
  exact List.append_cancel_left hd

/-- `os.path.join` with a fixed directory is injective in the file name. -/
theorem pyJoin_cancel {dir a b : String} (h : pyJoin dir a = pyJoin dir b) :
    a = b := by
  unfold pyJoin at h
  by_cases hdir : dir.data.getLast? = some '/'
  · rw [if_pos hdir, if_pos hdir] at h
    exact string_append_cancel h
  · rw [if_neg hdir, if_neg hdir] at h
    exact string_append_cancel h

/-- The default sweep filename splits into the per-run stem and the
cell-dependent suffix. -/
theorem cell_file_stem (out_dir pc im am : String) (l h : Nat) :
    cell_output_file none out_dir pc im am l h =
      pyJoin out_dir (sweepStem pc im am ++ cellSuffix l h) := by
  unfold cell_output_file sweepStem cellSuffix
  congr 1
  apply String.ext
  simp [String.data_append, List.append_assoc]

/-! ## Claim theorems -/

/-- C2: the claim says checkpoint loading completes before ablation, leaving
the target head's slices zero when intrasentence scoring begins. The code does
the opposite: with pruning on and a checkpoint configured, the model handed to
scoring is exactly the checkpoint (first conjunct), whose head-0 query bias
slice is 1, not 0 (second conjunct); without a checkpoint the ablation would
have survived (third conjunct), isolating the load as the overwriting step. -/
theorem C2_checkpoint_load_overwrites_ablation :
    intrasentence_model_setup tinyModel true 0 0 (some tinyModel) = some tinyModel ∧
    headBiasSlice tinyLayer.query_bias 0 1 = [1] ∧
    intrasentence_model_setup tinyModel true 0 0 none ≠ some tinyModel := by
  refine ⟨by decide, by decide, by decide⟩

/-- C3: the claim says ablating head 0 zeroes the weight slice along the
output-feature axis (rows 0..head_dim). On the all-ones 2-head model the code
instead zeroes the column slice (first conjunct, both rows lose column 0), so
the output-axis readback of head 0 is `[[0, 1]]` — not all zero (second
conjunct); only the bias slice readback is zero as claimed (third conjunct). -/
theorem C3_output_axis_weight_slice_not_zeroed :
    (zero_out_attention_weights tinyModel 0 0).map
        (fun m => (m.layers.headD tinyLayer).query_weight) =
      some [[0, 1], [0, 1]] ∧
    (zero_out_attention_weights tinyModel 0 0).map
        (fun m => headWeightRows (m.layers.headD tinyLayer).query_weight 0 1) =
      some [[0, 1]] ∧
    (zero_out_attention_weights tinyModel 0 0).map
        (fun m => headBiasSlice (m.layers.headD tinyLayer).query_bias 0 1) =
      some [0] := by
  refine ⟨by decide, by decide, by decide⟩

/-- C4: the claim says ablating head 0 leaves head 1's weight slice
bit-identical. On the all-ones 2-head model head 1's output-axis query-weight
slice is `[[1, 1]]` before ablation and `[[0, 1]]` after: the code's column
zeroing crosses every head's rows. -/
theorem C4_other_head_slice_altered :
    headWeightRows tinyLayer.query_weight 1 1 = [[1, 1]] ∧
    (zero_out_attention_weights tinyModel 0 0).map
        (fun m => headWeightRows (m.layers.headD tinyLayer).query_weight 1 1) =
      some [[0, 1]] := by
  refine ⟨by decide, by decide⟩

/-- C5 counterexample: the claim says any out-of-range (layer, head) index
fails and the run cannot proceed. On the 1-layer 2-head model, head index 2 is
out of range yet the call returns normally with the model unchanged (empty
slice), and layer index -1 is outside [0, num_layers) yet returns normally
(python wrap-around). -/
theorem C5_counterexample_out_of_range_returns :
    zero_out_attention_weights tinyModel 0 2 = some tinyModel ∧
    (zero_out_attention_weights tinyModel (-1) 0).isSome = true := by
  refine ⟨by decide, by decide⟩

/-- C5 amended: only a layer index at or beyond the layer count (or below the
negative wrap-around range) raises the out-of-range indexing error; head
indices are never validated. -/
theorem C5_amended_layer_overflow_errors (m : BertEncoder)
    (layer_num head_num : Int)
    (h : (m.layers.length : Int) ≤ layer_num ∨
      layer_num < -(m.layers.length : Int)) :
    zero_out_attention_weights m layer_num head_num = none := by
  have hidx : pyIndex m.layers layer_num = none := by
    unfold pyIndex
    rcases h with h | h
    · have h0 : ¬ layer_num < 0 := by omega
      rw [if_neg h0]
      apply List.getElem?_eq_none
      omega
    · have h0 : layer_num < 0 := by omega
      rw [if_pos h0, if_pos (by omega)]
  unfold zero_out_attention_weights
  rw [hidx]

/-- C5 amended, witness: layer index 5 on the 1-layer model errors. -/
theorem C5_amended_witness :
    zero_out_attention_weights tinyModel 5 0 = none :=
  C5_amended_layer_overflow_errors tinyModel 5 0 (Or.inl (by decide))

/-- C1 counterexample: on a four-field batch — the arity the intersentence
loader yields, as the sequential loop's own unpack at line 284 establishes —
the dispatched worker raises at its three-target unpack and returns no
(id, score) pair at all, while the sequential path scores the same example
`e1` as 3/4 (conjuncts 1-2). Even on a hypothetical three-field batch the
worker's substring test diverges from the sequential test at `roberta-large`:
3/4 against 1/4 on the same logits (conjuncts 3-4). -/
theorem C1_counterexample_worker_unpack_fails :
    process_job myExp (fun _ _ : String => [2, -1]) (fun s => s)
        "bert-base-cased" ["iids", "ttids", "amask", "e1"] = none ∧
    sequential_intersentence_record myExp "bert-base-cased" ("e1", [2, -1]) =
      ⟨"e1", 3/4⟩ ∧
    process_job myExp (fun _ _ : String => [2, -1]) (fun s => s)
        "roberta-large" ["iids", "ttids", "e1"] = some ("e1", 3/4) ∧
    sequential_intersentence_record myExp "roberta-large" ("e1", [2, -1]) =
      ⟨"e1", 1/4⟩ := by
  refine ⟨rfl, by with_unfolding_all rfl, by with_unfolding_all rfl,
    by with_unfolding_all rfl⟩

/-- C1 amended: the fan-out worker never returns a score on the four-field
batches the loader yields — its three-target unpack fails first (first
conjunct, for every field interpretation); only on a three-field batch does it
return an (id, score) pair, and that pair matches the sequential path exactly
when the worker's substring test agrees with the sequential
prefix-or-roberta-base test on the family name (second conjunct). -/
theorem C1_amended_worker_errors {Field : Type} (expf : ℚ → ℚ)
    (modelOut : Field → Field → List ℚ) (firstId : Field → String)
    (pretrained_class : String)
    (input_ids token_type_ids attention_mask sentence_id : Field) :
    process_job expf modelOut firstId pretrained_class
        [input_ids, token_type_ids, attention_mask, sentence_id] = none ∧
    (worker_class_zero pretrained_class = sequential_class_zero pretrained_class →
      process_job expf modelOut firstId pretrained_class
          [input_ids, token_type_ids, sentence_id] =
        some ((sequential_intersentence_record expf pretrained_class
              (firstId sentence_id, modelOut input_ids token_type_ids)).id,
            (sequential_intersentence_record expf pretrained_class
              (firstId sentence_id, modelOut input_ids token_type_ids)).score)) := by
  constructor
  · rfl
  · intro h
    unfold process_job pyUnpack3 sequential_intersentence_record
      sequential_intersentence_score
    rw [h]

/-- C1 amended, witness: a concrete four-field batch makes the worker error,
and for family `gpt2` (where the two class tests agree) a three-field batch
makes it coincide with the sequential path. -/
theorem C1_amended_worker_witness :
    process_job myExp (fun _ _ : String => [2, -1]) (fun s => s) "gpt2"
        ["iids", "ttids", "amask", "sid"] = none ∧
    process_job myExp (fun _ _ : String => [2, -1]) (fun s => s) "gpt2"
        ["iids", "ttids", "e2"] =
      some ((sequential_intersentence_record myExp "gpt2" ("e2", [2, -1])).id,
          (sequential_intersentence_record myExp "gpt2" ("e2", [2, -1])).score) :=
  ⟨(C1_amended_worker_errors myExp (fun _ _ => [2, -1]) (fun s => s) "gpt2"
      "iids" "ttids" "amask" "sid").1,
   (C1_amended_worker_errors myExp (fun _ _ => [2, -1]) (fun s => s) "gpt2"
      "iids" "ttids" "amask" "e2").2 (by decide)⟩

/-- C7: the sequential intersentence score is the softmax probability at class
0 exactly when the family name begins with `bert` or equals `roberta-base`,
and at class 1 otherwise; in particular `bert-base-cased` on logits `[2, -1]`
selects class 0 and `gpt2` selects class 1. -/
theorem C7_sequential_selection_policy (expf : ℚ → ℚ)
    (pretrained_class : String) (logits : List ℚ) :
    (sequential_intersentence_score expf pretrained_class logits =
      (softmax expf logits).getD
        (if "bert".data <+: pretrained_class.data ∨
            pretrained_class = "roberta-base" then 0 else 1) 0) ∧
    sequential_intersentence_score expf "bert-base-cased" [2, -1] =
      (softmax expf [2, -1]).getD 0 0 ∧
    sequential_intersentence_score expf "gpt2" [2, -1] =
      (softmax expf [2, -1]).getD 1 0 := by
  refine ⟨?_, ?_, ?_⟩
  · by_cases hor : "bert".data <+: pretrained_class.data ∨
        pretrained_class = "roberta-base"
    · rw [if_pos hor]
      have hz : sequential_class_zero pretrained_class = true := by
        unfold sequential_class_zero
        rcases hor with hp | he
        · have htake : pretrained_class.data.take 4 = "bert".data := by
            have h4 := List.prefix_iff_eq_take.mp hp
            exact h4.symm
          simp [htake]
        · simp [he]
      unfold sequential_intersentence_score
      simp [hz]
    · rw [if_neg hor]
      push_neg at hor
      have hz : sequential_class_zero pretrained_class = false := by
        unfold sequential_class_zero
        have h1 : ¬ pretrained_class.data.take 4 = "bert".data := by
          intro hcon
          exact hor.1 (List.prefix_iff_eq_take.mpr hcon.symm)
        simp [h1, hor.2]
      unfold sequential_intersentence_score
      simp [hz]
  · have hz : sequential_class_zero "bert-base-cased" = true := by decide
    unfold sequential_intersentence_score
    simp [hz]
  · have hz : sequential_class_zero "gpt2" = false := by decide
    unfold sequential_intersentence_score
    simp [hz]

/-- C6: under the data-model guarantee of exactly one designated mask position
per loader row, the intrasentence evaluation equals the spec-side computation:
group the per-(example, masked-position) softmax probabilities by example id
and score each id by their arithmetic mean. -/
theorem C6_intrasentence_score_is_mean (expf : ℚ → ℚ)
    (model : List Nat → Nat → List ℚ) (mask_token_idx : Nat)
    (batches : List (List IntraRow))
    (h : ∀ b ∈ batches, ∀ r ∈ b,
        (maskPositions mask_token_idx r.input_ids).length = 1) :
    evaluate_intrasentence expf model mask_token_idx batches =
      specIntrasentenceScores expf model mask_token_idx batches.flatten := by
  unfold evaluate_intrasentence specIntrasentenceScores
  congr 1
  unfold word_probabilities
  rw [foldl_inner_flatten]
  congr 1
  rw [List.map_congr_left
    (fun b hb => batchContribs_of_single expf model mask_token_idx b (h b hb))]
  exact Eq.symm (List.map_flatten _ batches)

/-- C6 witness: the two-row example `ex1` (mask at position 0 with target 0,
mask at position 1 with target 0) satisfies the one-mask-per-row hypothesis,
the evaluation equals the spec-side mean, and the concrete score is the
arithmetic mean of the two position probabilities 3/4 and 1/4. -/
theorem C6_witness :
    (∀ b ∈ cBatches, ∀ r ∈ b, (maskPositions 9 r.input_ids).length = 1) ∧
    evaluate_intrasentence myExp cModel 9 cBatches =
      specIntrasentenceScores myExp cModel 9 cBatches.flatten ∧
    evaluate_intrasentence myExp cModel 9 cBatches =
      [⟨"ex1", (3/4 + 1/4) / 2⟩] :=
  ⟨by decide, C6_intrasentence_score_is_mean myExp cModel 9 cBatches (by decide),
   by with_unfolding_all rfl⟩

/-- C9: in the record list one intrasentence evaluation returns, every example
id appears at most once — the ids are pairwise distinct for every input. -/
theorem C9_result_ids_distinct (expf : ℚ → ℚ)
    (model : List Nat → Nat → List ℚ) (mask_token_idx : Nat)
    (batches : List (List IntraRow)) :
    ((evaluate_intrasentence expf model mask_token_idx batches).map
        ScoreRecord.id).Nodup := by
  unfold evaluate_intrasentence
  rw [List.map_map]
  have hcomp : (ScoreRecord.id ∘ fun kv : String × List ℚ =>
      (⟨kv.1, kv.2.sum / (kv.2.length : ℚ)⟩ : ScoreRecord)) = Prod.fst := rfl
  rw [hcomp]
  unfold word_probabilities
  rw [foldl_inner_flatten]
  exact foldl_addProb_keys_nodup _ [] (by simp)

/-- C10: with a positive exponential, every intrasentence record score is in
[0, 1] (an arithmetic mean of softmax probabilities) and every sequential
intersentence score is in [0, 1] (a single softmax probability). -/
theorem C10_scores_in_unit_interval (expf : ℚ → ℚ) (hpos : ∀ q : ℚ, 0 < expf q)
    (model : List Nat → Nat → List ℚ) (mask_token_idx : Nat)
    (batches : List (List IntraRow)) :
    (∀ rec ∈ evaluate_intrasentence expf model mask_token_idx batches,
        0 ≤ rec.score ∧ rec.score ≤ 1) ∧
    (∀ (pretrained_class : String) (logits : List ℚ),
        0 ≤ sequential_intersentence_score expf pretrained_class logits ∧
        sequential_intersentence_score expf pretrained_class logits ≤ 1) := by
  constructor
  · intro rec hrec
    unfold evaluate_intrasentence at hrec
    rcases List.mem_map.mp hrec with ⟨kv, hkv, rfl⟩
    unfold word_probabilities at hkv
    rw [foldl_inner_flatten] at hkv
    have hvals := foldl_addProb_values (fun x => 0 ≤ x ∧ x ≤ 1)
      ((batches.map (batchContribs expf model mask_token_idx)).flatten) []
      (by simp)
      (fun c hc => by
        rcases List.mem_flatten.mp hc with ⟨cl, hcl, hcin⟩
        rcases List.mem_map.mp hcl with ⟨b, _, rfl⟩
        exact batchContribs_values expf hpos model mask_token_idx b c hcin)
      kv hkv
    exact mean_mem_unit kv.2 hvals.1 hvals.2
  · intro pretrained_class logits
    unfold sequential_intersentence_score
    cases hc : sequential_class_zero pretrained_class <;> simp only [hc] <;>
      simp only [Bool.false_eq_true, if_false, if_true] <;>
      exact softmax_getD_unit expf hpos logits _

/-- C10 witness: concrete bounds for family `gpt2` on logits `[2, -1]` under
the witness exponential. -/
theorem C10_witness :
    0 ≤ sequential_intersentence_score myExp "gpt2" [2, -1] ∧
    sequential_intersentence_score myExp "gpt2" [2, -1] ≤ 1 :=
  (C10_scores_in_unit_interval myExp myExp_pos cModel 9 cBatches).2 "gpt2" [2, -1]

/-- C8 counterexample: with an explicit `--output-file` name every one of the
144 sweep iterations writes the same path — 144 writes, 1 distinct file — so
the sweep does not write 144 distinct output files in that configuration. -/
theorem C8_counterexample_shared_output_file :
    (pruning_sweep_files (some "preds.json") "predictions" "bert-base-cased"
        "BertNextSentence" "BertLM").length = 144 ∧
    (pruning_sweep_files (some "preds.json") "predictions" "bert-base-cased"
        "BertNextSentence" "BertLM").dedup.length = 1 := by
  refine ⟨by decide, by decide⟩

/-- C8 amended: without an explicit output-file name, the sweep covers the full
12x12 grid and writes 144 pairwise-distinct output paths, the layer and head
indices being embedded in each default filename. -/
theorem C8_amended_distinct_files (out_dir pc im am : String) :
    (pruning_sweep_files none out_dir pc im am).length = 144 ∧
    (pruning_sweep_files none out_dir pc im am).Nodup ∧
    ∀ l : Nat, l < 12 → ∀ h : Nat, h < 12 → (l, h) ∈ gridPairs := by
  have hform : pruning_sweep_files none out_dir pc im am =
      (gridPairs.map (fun p => cellSuffix p.1 p.2)).map
        (fun s => pyJoin out_dir (sweepStem pc im am ++ s)) := by
    simp only [pruning_sweep_files, gridPairs, List.map_flatMap, List.map_map,
      Function.comp_def, cell_file_stem]
  refine ⟨?_, ?_, by decide⟩
  · rw [hform, List.length_map, List.length_map]
    decide
  · rw [hform]
    refine List.Nodup.map ?_ ?_
    · intro s1 s2 hs
      exact string_append_cancel (pyJoin_cancel hs)
    · decide

/-- C8 amended, witness: a concrete default-named sweep yields 144 paths and
the grid contains a concrete cell. -/
theorem C8_amended_witness :
    (pruning_sweep_files none "predictions" "bert-base-cased" "BertNextSentence"
        "BertLM").length = 144 ∧
    (11, 7) ∈ gridPairs :=
  ⟨(C8_amended_distinct_files "predictions" "bert-base-cased" "BertNextSentence"
      "BertLM").1,
   (C8_amended_distinct_files "predictions" "bert-base-cased" "BertNextSentence"
      "BertLM").2.2 11 (by decide) 7 (by decide)⟩

end StereoSetEval
